import Mathlib

/-!
Verification of the SQL query gateway, connection provider and schema
bootstrap of the `Googel_adk_postgres` repository.

The Python sources are shallowly embedded:

* `run_sql_query` (src/core/adk_config.py) and the older variant in
  src/agent.py are modelled as pure functions of a `DbOracle` that fixes
  the outcome of each primitive database operation (connect, execute,
  fetchall, commit) of one invocation.  The functions return the produced
  envelope (or the propagated Python exception) together with a record of
  the observable effects (connection acquired, number of close calls,
  whether commit was called and whether it took effect).
* Python `dict` comprehensions are modelled by insertion-ordered
  association lists where re-assigning an existing key overwrites the
  value in place (`dictInsert` / `dictOfPairs`), exactly the CPython
  semantics relevant to `convert_row`.
* `float(decimal)` is modelled as a constructor change on `SqlValue`
  keeping the numeric payload; the claims under study are about which
  kind of scalar appears in the envelope, not about rounding.
* `create_tables` (src/core/db_operations.py) is modelled both as a pure
  table-state transformer (for idempotence) and as a function of a
  `BootOracle` (for its error behaviour).
* the module-level credential loading of src/core/db_operations.py is
  modelled by `dbModuleInit`; `os.getenv` returns `None` for an absent
  variable and never raises, so module initialisation is a total
  function of the environment.
-/

namespace AdkPostgres

/-- A scalar value as delivered by the database driver or placed in the
result envelope.  `decimal` models `decimal.Decimal`, `float` a Python
float; both carry their numeric payload as a rational. -/
inductive SqlValue where
  | null
  | bool (b : Bool)
  | int (n : Int)
  | float (q : Rat)
  | decimal (q : Rat)
  | text (s : String)
deriving DecidableEq, Repr

/-- Whether a scalar is an arbitrary-precision decimal
(`isinstance(value, Decimal)` in the source). -/
def SqlValue.isDecimal : SqlValue → Bool
  | .decimal _ => true
  | _ => false

/-- src/core/adk_config.py, `convert_value`: converts `Decimal` objects to
float, otherwise returns the value as is. -/
def convert_value : SqlValue → SqlValue
  | .decimal q => .float q
  | v => v

/-- A Python dict with string keys, as an insertion-ordered association
list; the invariant that keys are distinct is proved, not assumed. -/
abbrev PyDict := List (String × SqlValue)

/-- One step of building a Python dict: assigning `d[k] = v`.  If `k` is
already a key its value is overwritten in place (the key keeps its
original position); otherwise the pair is appended. -/
def dictInsert (d : PyDict) (k : String) (v : SqlValue) : PyDict :=
  if d.any (fun p => decide (p.1 = k)) then
    d.map (fun p => if p.1 = k then (k, v) else p)
  else
    d ++ [(k, v)]

/-- A Python dict comprehension over a list of key/value pairs, evaluated
left to right. -/
def dictOfPairs (ps : List (String × SqlValue)) : PyDict :=
  ps.foldl (fun d p => dictInsert d p.1 p.2) []

/-- src/core/adk_config.py, `convert_row`: the dict comprehension
`{col: convert_value(val) for col, val in zip(columns, row)}`.  The
variant in src/agent.py inlines `convert_value` but builds the same
dict. -/
def convert_row (columns : List String) (row : List SqlValue) : PyDict :=
  dictOfPairs ((columns.zip row).map (fun p => (p.1, convert_value p.2)))

/-- Python dict lookup `d[k]` (first—and, for a built dict, only—entry
with key `k`). -/
def lookupDict (k : String) : PyDict → Option SqlValue
  | [] => none
  | (k', v) :: tl => if k' = k then some v else lookupDict k tl

/-- The value paired with the LAST occurrence of key `k` in a raw pair
list (before dict construction). -/
def lastValueFor (k : String) : List (String × SqlValue) → Option SqlValue
  | [] => none
  | (k', v) :: tl =>
    match lastValueFor k tl with
    | some w => some w
    | none => if k' = k then some v else none

/-- Number of entries of a dict carrying key `k`. -/
def countKey (k : String) (d : PyDict) : Nat :=
  (d.filter (fun p => decide (p.1 = k))).length

/-- Outcome of `cur.execute(query)`: the cursor's `description` (column
names, `none` for a write statement) and its `rowcount`. -/
structure ExecResult where
  description : Option (List String)
  rowcount : Int
deriving DecidableEq, Repr

/-- Fixes the outcome of each primitive database operation during one
gateway invocation: `connect` is `get_connection()`, `executeQ` is
`cur.execute(query)`, `fetchall` is `cur.fetchall()`, `commitR` is
`conn.commit()`.  An `Except.error` means the operation raises with the
given message. -/
structure DbOracle where
  connect : Except String Unit
  executeQ : Except String ExecResult
  fetchall : Except String (List (List SqlValue))
  commitR : Except String Unit

/-- The structured envelope dictionaries the gateway returns:
`{"status": "success", "results": ...}`, `{"status": "success",
"message": ...}` or `{"status": "error", "message": ...}`. -/
inductive Envelope where
  | results (rs : List PyDict)
  | successMsg (m : String)
  | errorMsg (m : String)
deriving DecidableEq, Repr

/-- The `status` field of an envelope. -/
def Envelope.status : Envelope → String
  | .results _ => "success"
  | .successMsg _ => "success"
  | .errorMsg _ => "error"

/-- A Python exception escaping the gateway.  The only exception either
gateway variant can propagate is the `UnboundLocalError` raised by
evaluating `if conn:` in the `finally` block when `conn` was never
assigned. -/
inductive PyExc where
  | unboundLocal (n : String)
deriving DecidableEq, Repr

deriving instance DecidableEq for Except

/-- Observable outcome of one gateway invocation: the returned envelope
(or propagated exception) and the side effects on the connection. -/
structure GatewayRun where
  result : Except PyExc Envelope
  acquired : Bool
  closes : Nat
  commitCalled : Bool
  committed : Bool
deriving DecidableEq, Repr

/-- Python truthiness of `cur.description`: `None` and an empty sequence
are both falsy (`if cur.description:` in the source). -/
def truthyDescription : Option (List String) → Bool
  | some (_ :: _) => true
  | _ => false

/-- src/core/adk_config.py, `run_sql_query`.  `conn = None` precedes the
`try`, so the `finally` block `if conn: conn.close()` closes exactly when
a connection was acquired and is reached on every path; every failure of
connect/execute/fetch/commit is caught by `except Exception` and turned
into an error envelope. -/
def run_sql_query (o : DbOracle) : GatewayRun :=
  match o.connect with
  | .error e => ⟨.ok (.errorMsg e), false, 0, false, false⟩
  | .ok () =>
    match o.executeQ with
    | .error e => ⟨.ok (.errorMsg e), true, 1, false, false⟩
    | .ok res =>
      if truthyDescription res.description then
        match o.fetchall with
        | .error e => ⟨.ok (.errorMsg e), true, 1, false, false⟩
        | .ok rows =>
          ⟨.ok (.results (rows.map (fun r => convert_row (res.description.getD []) r))),
            true, 1, false, false⟩
      else
        match o.commitR with
        | .error e => ⟨.ok (.errorMsg e), true, 1, true, false⟩
        | .ok () =>
          ⟨.ok (.successMsg (toString res.rowcount ++ " rows affected.")),
            true, 1, true, true⟩

/-- src/agent.py, `run_sql_query`.  Identical to the adk_config variant
except that no `conn = None` precedes the `try`: when `get_connection()`
raises, the `except` clause prepares the error envelope, but the
`finally` block evaluates `if conn:` with `conn` unbound, raising an
`UnboundLocalError` that replaces the pending return and propagates to
the caller. -/
def agent_run_sql_query (o : DbOracle) : GatewayRun :=
  match o.connect with
  | .error _ => ⟨.error (.unboundLocal "conn"), false, 0, false, false⟩
  | .ok () =>
    match o.executeQ with
    | .error e => ⟨.ok (.errorMsg e), true, 1, false, false⟩
    | .ok res =>
      if truthyDescription res.description then
        match o.fetchall with
        | .error e => ⟨.ok (.errorMsg e), true, 1, false, false⟩
        | .ok rows =>
          ⟨.ok (.results (rows.map (fun r => convert_row (res.description.getD []) r))),
            true, 1, false, false⟩
      else
        match o.commitR with
        | .error e => ⟨.ok (.errorMsg e), true, 1, true, false⟩
        | .ok () =>
          ⟨.ok (.successMsg (toString res.rowcount ++ " rows affected.")),
            true, 1, true, true⟩

/-- A column definition of a `CREATE TABLE` statement, as written in
src/core/db_operations.py. -/
structure ColumnDef where
  colName : String
  sqlType : String
  notNull : Bool
  primaryKey : Bool
  uniqueCol : Bool
  refTable : Option String
  onDeleteCascade : Bool
deriving DecidableEq, Repr

/-- A table schema: its columns plus table-level UNIQUE constraints. -/
structure TableSchema where
  columns : List ColumnDef
  tableUniques : List (List String)
deriving DecidableEq, Repr

/-- The catalog of the relational store: existing tables in creation
order with their schemas. -/
abbrev DbState := List (String × TableSchema)

/-- Whether a table of the given name exists in the store. -/
def hasTable (s : DbState) (n : String) : Bool :=
  s.any (fun p => decide (p.1 = n))

/-- Semantics of `CREATE TABLE IF NOT EXISTS n (...)` on the catalog: a
no-op when the table exists (whatever its schema), otherwise the table is
created with the given schema. -/
def createTableIfNotExists (s : DbState) (n : String) (sch : TableSchema) : DbState :=
  if hasTable s n then s else s ++ [(n, sch)]

/-- The employees table of src/core/db_operations.py:
`id SERIAL PRIMARY KEY, name TEXT NOT NULL UNIQUE`. -/
def employeesSchema : TableSchema :=
  { columns :=
      [⟨"id", "SERIAL", false, true, false, none, false⟩,
       ⟨"name", "TEXT", true, false, true, none, false⟩],
    tableUniques := [] }

/-- The employee_skills table of src/core/db_operations.py:
`id SERIAL PRIMARY KEY, employee_id INT REFERENCES employees(id) ON
DELETE CASCADE, tech TEXT NOT NULL, experience_years NUMERIC NOT NULL,
UNIQUE (employee_id, tech)`. -/
def employeeSkillsSchema : TableSchema :=
  { columns :=
      [⟨"id", "SERIAL", false, true, false, none, false⟩,
       ⟨"employee_id", "INT", false, false, false, some "employees", true⟩,
       ⟨"tech", "TEXT", true, false, false, none, false⟩,
       ⟨"experience_years", "NUMERIC", true, false, false, none, false⟩],
    tableUniques := [["employee_id", "tech"]] }

/-- Effect of a successful run of `create_tables`
(src/core/db_operations.py) on the catalog: the two guarded CREATE
statements in order, then commit (commit does not change the catalog). -/
def create_tables_effect (s : DbState) : DbState :=
  createTableIfNotExists
    (createTableIfNotExists s "employees" employeesSchema)
    "employee_skills" employeeSkillsSchema

/-- Fixes the outcome of each step of one `create_tables` run:
`get_connection()`, the two `curr.execute(CREATE ...)` calls, and
`conn.commit()`. -/
structure BootOracle where
  connect : Except String Unit
  createEmployees : Except String Unit
  createSkills : Except String Unit
  commitB : Except String Unit

/-- Observable outcome of one `create_tables` run: whether the function
returns normally or propagates an exception, whether the except-branch
printed and logged an error, and how many times the connection was
closed. -/
structure BootRun where
  result : Except PyExc Unit
  loggedError : Bool
  closes : Nat
deriving DecidableEq, Repr

/-- src/core/db_operations.py, `create_tables`.  `conn = None` and
`curr = None` precede the `try`; every exception of any step is caught by
`except Exception`, printed and logged, after which the function returns
`None` normally; the `finally` block closes the acquired connection. -/
def create_tables (o : BootOracle) : BootRun :=
  match o.connect with
  | .error _ => ⟨.ok (), true, 0⟩
  | .ok () =>
    match o.createEmployees with
    | .error _ => ⟨.ok (), true, 1⟩
    | .ok () =>
      match o.createSkills with
      | .error _ => ⟨.ok (), true, 1⟩
      | .ok () =>
        match o.commitB with
        | .error _ => ⟨.ok (), true, 1⟩
        | .ok () => ⟨.ok (), false, 1⟩

/-- The five module-level credential globals of
src/core/db_operations.py, each the result of `os.getenv(...)`. -/
structure DbCredentials where
  host : Option String
  port : Option String
  dbname : Option String
  user : Option String
  password : Option String
deriving DecidableEq, Repr

/-- Module initialisation of src/core/db_operations.py: the five
`os.getenv` reads.  `os.getenv` returns `None` for an absent variable
and never raises, so initialisation is a total function of the
environment and cannot fail. -/
def dbModuleInit (env : String → Option String) : DbCredentials :=
  ⟨env "POSTGRES_HOST", env "POSTGRES_PORT", env "POSTGRES_DB",
   env "POSTGRES_USER", env "POSTGRES_PASSWORD"⟩

/-- Fixes the outcome of the single `psycopg2.connect(...)` call of one
`get_connection()` invocation. -/
structure ConnOracle where
  connectAttempt : Except String Unit

/-- Observable outcome of one `get_connection()` invocation: whether a
connection is returned or the exception propagates, and how many
connection attempts were made. -/
structure ConnRun where
  result : Except String Unit
  attempts : Nat
deriving DecidableEq, Repr

/-- src/core/db_operations.py, `get_connection`: one `psycopg2.connect`
attempt; on failure the exception is printed, logged and re-raised by the
bare `raise`.  There is no retry loop. -/
def get_connection (o : ConnOracle) : ConnRun :=
  match o.connectAttempt with
  | .ok () => ⟨.ok (), 1⟩
  | .error e => ⟨.error e, 1⟩

/-- Concrete invocation in which `get_connection()` raises (store
unreachable); the remaining outcomes are irrelevant on this path. -/
def connectFailOracle : DbOracle :=
  ⟨.error "could not connect to server", .ok ⟨none, -1⟩, .ok [], .ok ()⟩

/-- Concrete invocation of a row-returning statement whose description
lists the same column name twice (e.g. `SELECT id AS a, name AS a ...`),
with one fetched row. -/
def dupColOracle : DbOracle :=
  ⟨.ok (), .ok ⟨some ["a", "a"], -1⟩, .ok [[.int 1, .int 2]], .ok ()⟩

/-- Concrete invocation of a write statement affecting one row (e.g.
inserting one employee row). -/
def writeOneOracle : DbOracle :=
  ⟨.ok (), .ok ⟨none, 1⟩, .ok [], .ok ()⟩

/-- Concrete invocation of a row-returning statement carrying a decimal
column (e.g. `experience_years`). -/
def decimalRowOracle : DbOracle :=
  ⟨.ok (), .ok ⟨some ["name", "experience_years"], -1⟩,
   .ok [[.text "Asha", .decimal (5 / 2)]], .ok ()⟩

/-- Concrete `create_tables` run in which the first CREATE statement
raises. -/
def failingBootOracle : BootOracle :=
  ⟨.ok (), .error "permission denied for schema public", .ok (), .ok ()⟩

/-! ### Lemmas about the Python-dict model -/

theorem lookupDict_eq_none_of_any_eq_false {k : String} {d : PyDict}
    (h : d.any (fun p => decide (p.1 = k)) = false) : lookupDict k d = none := by
  induction d with
  | nil => rfl
  | cons hd tl ih =>
    obtain ⟨k', v⟩ := hd
    simp only [List.any_cons, Bool.or_eq_false_iff, decide_eq_false_iff_not] at h
    simp [lookupDict, h.1, ih (by simpa using h.2)]

theorem lookupDict_append (k : String) (d e : PyDict) :
    lookupDict k (d ++ e) =
      match lookupDict k d with
      | some w => some w
      | none => lookupDict k e := by
  induction d with
  | nil => simp [lookupDict]
  | cons hd tl ih =>
    obtain ⟨k', v⟩ := hd
    by_cases h : k' = k
    · simp [lookupDict, h]
    · simp [lookupDict, h, ih]

theorem mapReplace_eq_self {k₀ : String} {v₀ : SqlValue} {d : PyDict}
    (h : k₀ ∉ d.map Prod.fst) :
    d.map (fun p => if p.1 = k₀ then (k₀, v₀) else p) = d := by
  induction d with
  | nil => rfl
  | cons hd tl ih =>
    obtain ⟨k₁, v₁⟩ := hd
    simp only [List.map_cons, List.mem_cons, not_or] at h
    have hne : ¬ k₁ = k₀ := fun he => h.1 he.symm
    simp [hne, ih h.2]

theorem lookupDict_mapReplace {d : PyDict} {k₀ : String} (v₀ : SqlValue) (k : String)
    (hnd : (d.map Prod.fst).Nodup) (h : d.any (fun p => decide (p.1 = k₀)) = true) :
    lookupDict k (d.map (fun p => if p.1 = k₀ then (k₀, v₀) else p)) =
      if k₀ = k then some v₀ else lookupDict k d := by
  induction d with
  | nil => simp at h
  | cons hd tl ih =>
    obtain ⟨k₁, v₁⟩ := hd
    simp only [List.map_cons, List.nodup_cons] at hnd
    by_cases h₁ : k₁ = k₀
    · subst h₁
      have htl : tl.map (fun p => if p.1 = k₁ then (k₁, v₀) else p) = tl :=
        mapReplace_eq_self hnd.1
      rw [List.map_cons, if_pos (show ((k₁, v₁) : String × SqlValue).1 = k₁ from rfl), htl]
      by_cases hk : k₁ = k
      · simp [lookupDict, hk]
      · simp [lookupDict, hk]
    · have htl : tl.any (fun p => decide (p.1 = k₀)) = true := by
        simpa [List.any_cons, h₁] using h
      rw [List.map_cons, if_neg (show ¬ ((k₁, v₁) : String × SqlValue).1 = k₀ from h₁)]
      by_cases hk : k₁ = k
      · subst hk
        have hk₀ : ¬ k₀ = k₁ := fun he => h₁ he.symm
        simp [lookupDict, hk₀]
      · simp [lookupDict, hk, ih hnd.2 htl]

theorem lookupDict_dictInsert (d : PyDict) (k₀ : String) (v₀ : SqlValue) (k : String)
    (hnd : (d.map Prod.fst).Nodup) :
    lookupDict k (dictInsert d k₀ v₀) =
      if k₀ = k then some v₀ else lookupDict k d := by
  by_cases h : d.any (fun p => decide (p.1 = k₀)) = true
  · rw [dictInsert, if_pos h]
    exact lookupDict_mapReplace v₀ k hnd h
  · have h' : d.any (fun p => decide (p.1 = k₀)) = false := by
      revert h; cases d.any (fun p => decide (p.1 = k₀)) <;> simp
    rw [dictInsert, if_neg (by simp [h']), lookupDict_append]
    by_cases hk : k₀ = k
    · subst hk
      rw [lookupDict_eq_none_of_any_eq_false h']
      simp [lookupDict]
    · simp only [lookupDict, hk, if_false]
      cases lookupDict k d <;> rfl

theorem keys_dictInsert (d : PyDict) (k : String) (v : SqlValue) :
    (dictInsert d k v).map Prod.fst =
      if d.any (fun p => decide (p.1 = k)) then d.map Prod.fst
      else d.map Prod.fst ++ [k] := by
  by_cases h : d.any (fun p => decide (p.1 = k)) = true
  · rw [dictInsert, if_pos h, if_pos h, List.map_map]
    apply List.map_congr_left
    intro p _
    by_cases hp : p.1 = k <;> simp [hp]
  · have h' : d.any (fun p => decide (p.1 = k)) = false := by
      revert h; cases d.any (fun p => decide (p.1 = k)) <;> simp
    rw [dictInsert, if_neg (by simp [h']), if_neg (by simp [h'])]
    simp

theorem any_key_eq_false_iff (d : PyDict) (k : String) :
    d.any (fun p => decide (p.1 = k)) = false ↔ k ∉ d.map Prod.fst := by
  simp only [List.any_eq_false, decide_eq_true_eq, List.mem_map]
  constructor
  · rintro h ⟨p, hp, rfl⟩
    exact h p hp rfl
  · intro h p hp hpk
    exact h ⟨p, hp, hpk⟩

theorem keys_nodup_dictInsert {d : PyDict} (k : String) (v : SqlValue)
    (hnd : (d.map Prod.fst).Nodup) :
    ((dictInsert d k v).map Prod.fst).Nodup := by
  rw [keys_dictInsert]
  by_cases h : d.any (fun p => decide (p.1 = k)) = true
  · simpa [h] using hnd
  · have h' : d.any (fun p => decide (p.1 = k)) = false := by
      revert h; cases d.any (fun p => decide (p.1 = k)) <;> simp
    have hk : k ∉ d.map Prod.fst := (any_key_eq_false_iff d k).mp h'
    simp only [h', Bool.false_eq_true, if_false]
    simp [List.nodup_append, hnd, hk]

theorem keys_nodup_dictOfPairs_loop (ps : List (String × SqlValue)) :
    ∀ d : PyDict, (d.map Prod.fst).Nodup →
      ((ps.foldl (fun d p => dictInsert d p.1 p.2) d).map Prod.fst).Nodup := by
  induction ps with
  | nil => intro d hd; simpa using hd
  | cons hd tl ih =>
    intro d hnd
    exact ih _ (keys_nodup_dictInsert hd.1 hd.2 hnd)

theorem keys_nodup_dictOfPairs (ps : List (String × SqlValue)) :
    ((dictOfPairs ps).map Prod.fst).Nodup :=
  keys_nodup_dictOfPairs_loop ps [] (by simp)

theorem lookupDict_dictOfPairs_loop (k : String) (ps : List (String × SqlValue)) :
    ∀ d : PyDict, (d.map Prod.fst).Nodup →
      lookupDict k (ps.foldl (fun d p => dictInsert d p.1 p.2) d) =
        match lastValueFor k ps with
        | some w => some w
        | none => lookupDict k d := by
  induction ps with
  | nil => intro d _; simp [lastValueFor]
  | cons hd tl ih =>
    intro d hnd
    obtain ⟨k₀, v₀⟩ := hd
    rw [List.foldl_cons]
    rw [ih _ (keys_nodup_dictInsert k₀ v₀ hnd)]
    rw [lookupDict_dictInsert d k₀ v₀ k hnd]
    show _ = match lastValueFor k ((k₀, v₀) :: tl) with
      | some w => some w
      | none => lookupDict k d
    rw [lastValueFor]
    cases lastValueFor k tl with
    | some w => rfl
    | none =>
      by_cases hk : k₀ = k
      · simp [hk]
      · simp [hk]

theorem lookupDict_dictOfPairs (k : String) (ps : List (String × SqlValue)) :
    lookupDict k (dictOfPairs ps) = lastValueFor k ps := by
  rw [dictOfPairs, lookupDict_dictOfPairs_loop k ps [] (by simp)]
  cases lastValueFor k ps <;> rfl

theorem lastValueFor_eq_none_iff (k : String) (ps : List (String × SqlValue)) :
    lastValueFor k ps = none ↔ k ∉ ps.map Prod.fst := by
  induction ps with
  | nil => simp [lastValueFor]
  | cons hd tl ih =>
    obtain ⟨k₀, v₀⟩ := hd
    rw [lastValueFor]
    cases h : lastValueFor k tl with
    | some w =>
      have hk : k ∈ tl.map Prod.fst := by
        by_contra hc
        rw [ih.mpr hc] at h
        exact Option.noConfusion h
      simp [hk]
    | none =>
      have hk : k ∉ tl.map Prod.fst := ih.mp h
      by_cases hke : k₀ = k
      · simp [hke]
      · rw [if_neg hke]
        simp only [List.map_cons, List.mem_cons, not_or]
        exact iff_of_true trivial ⟨fun he => hke he.symm, hk⟩

theorem countKey_le_one {d : PyDict} (k : String)
    (hnd : (d.map Prod.fst).Nodup) : countKey k d ≤ 1 := by
  induction d with
  | nil => simp [countKey]
  | cons hd tl ih =>
    obtain ⟨k₁, v₁⟩ := hd
    simp only [List.map_cons, List.nodup_cons] at hnd
    by_cases hk : k₁ = k
    · subst hk
      have hfil : tl.filter (fun p => decide (p.1 = k₁)) = [] := by
        rw [List.filter_eq_nil_iff]
        intro p hp
        simp only [decide_eq_true_eq]
        exact fun he => hnd.1 (List.mem_map.mpr ⟨p, hp, he⟩)
      simp [countKey, List.filter_cons, hfil]
    · have : countKey k ((k₁, v₁) :: tl) = countKey k tl := by
        simp [countKey, List.filter_cons, hk]
      rw [this]
      exact ih hnd.2

theorem one_le_countKey_of_lookupDict {d : PyDict} {k : String} {v : SqlValue}
    (h : lookupDict k d = some v) : 1 ≤ countKey k d := by
  induction d with
  | nil => exact absurd h (by simp [lookupDict])
  | cons hd tl ih =>
    obtain ⟨k₁, v₁⟩ := hd
    by_cases hk : k₁ = k
    · simp [countKey, List.filter_cons, hk]
    · rw [lookupDict, if_neg hk] at h
      have := ih h
      simpa [countKey, List.filter_cons, hk] using this

theorem mem_dictInsert {q : String × SqlValue} {d : PyDict} {k : String} {v : SqlValue}
    (h : q ∈ dictInsert d k v) : q ∈ d ∨ q = (k, v) := by
  by_cases ha : d.any (fun p => decide (p.1 = k)) = true
  · rw [dictInsert, if_pos ha] at h
    obtain ⟨p, hp, hq⟩ := List.mem_map.mp h
    by_cases hpk : p.1 = k
    · right
      rw [if_pos hpk] at hq
      exact hq.symm
    · left
      rw [if_neg hpk] at hq
      exact hq ▸ hp
  · rw [dictInsert, if_neg ha] at h
    rcases List.mem_append.mp h with h' | h'
    · exact Or.inl h'
    · exact Or.inr (by simpa using h')

theorem mem_dictOfPairs_loop {q : String × SqlValue} (ps : List (String × SqlValue)) :
    ∀ d : PyDict, q ∈ ps.foldl (fun d p => dictInsert d p.1 p.2) d → q ∈ d ∨ q ∈ ps := by
  induction ps with
  | nil => intro d h; exact Or.inl (by simpa using h)
  | cons hd tl ih =>
    intro d h
    rw [List.foldl_cons] at h
    rcases ih _ h with h' | h'
    · rcases mem_dictInsert h' with h'' | h''
      · exact Or.inl h''
      · exact Or.inr (by simp [h''])
    · exact Or.inr (List.mem_cons_of_mem _ h')

theorem mem_dictOfPairs {q : String × SqlValue} {ps : List (String × SqlValue)}
    (h : q ∈ dictOfPairs ps) : q ∈ ps := by
  rcases mem_dictOfPairs_loop ps [] h with h' | h'
  · exact absurd h' (by simp)
  · exact h'

theorem dictOfPairs_loop_of_nodup (ps : List (String × SqlValue)) :
    ∀ d : PyDict, (((d ++ ps).map Prod.fst)).Nodup →
      ps.foldl (fun d p => dictInsert d p.1 p.2) d = d ++ ps := by
  induction ps with
  | nil => intro d _; simp
  | cons hd tl ih =>
    intro d hnd
    obtain ⟨k₀, v₀⟩ := hd
    have h₀ : k₀ ∉ d.map Prod.fst := by
      intro hin
      rw [List.map_append, List.nodup_append] at hnd
      exact hnd.2.2 hin (by simp)
    have hins : dictInsert d k₀ v₀ = d ++ [(k₀, v₀)] := by
      rw [dictInsert, if_neg (by simp [(any_key_eq_false_iff d k₀).mpr h₀])]
    have hnd' : (((d ++ [(k₀, v₀)]) ++ tl).map Prod.fst).Nodup := by
      rw [List.append_assoc]
      simpa using hnd
    rw [List.foldl_cons, hins, ih _ hnd', List.append_assoc]
    rfl

theorem dictOfPairs_of_nodup {ps : List (String × SqlValue)}
    (hnd : (ps.map Prod.fst).Nodup) : dictOfPairs ps = ps := by
  rw [dictOfPairs, dictOfPairs_loop_of_nodup ps [] (by simpa using hnd)]
  rfl

/-! ### Lemmas about value conversion -/

theorem convert_value_not_decimal (v : SqlValue) :
    (convert_value v).isDecimal = false := by
  cases v <;> rfl

theorem convert_value_of_not_decimal {v : SqlValue} (h : v.isDecimal = false) :
    convert_value v = v := by
  cases v <;> first | rfl | exact absurd h (by simp [SqlValue.isDecimal])

theorem keys_convert_pairs (columns : List String) (row : List SqlValue)
    (h : columns.length ≤ row.length) :
    ((columns.zip row).map (fun p => (p.1, convert_value p.2))).map Prod.fst = columns := by
  rw [List.map_map]
  have hc : (Prod.fst ∘ fun p : String × SqlValue => (p.1, convert_value p.2)) =
      Prod.fst := rfl
  rw [hc, List.map_fst_zip _ _ h]

theorem convert_row_of_nodup {columns : List String} {row : List SqlValue}
    (hlen : row.length = columns.length) (hnd : columns.Nodup) :
    convert_row columns row = (columns.zip row).map (fun p => (p.1, convert_value p.2)) := by
  apply dictOfPairs_of_nodup
  rw [keys_convert_pairs _ _ (le_of_eq hlen.symm)]
  exact hnd

theorem keys_convert_row {columns : List String} {row : List SqlValue}
    (hlen : row.length = columns.length) (hnd : columns.Nodup) :
    (convert_row columns row).map Prod.fst = columns := by
  rw [convert_row_of_nodup hlen hnd, keys_convert_pairs _ _ (le_of_eq hlen.symm)]

theorem snd_convert_row_not_decimal {p : String × SqlValue}
    {columns : List String} {row : List SqlValue}
    (h : p ∈ convert_row columns row) : (p.2).isDecimal = false := by
  have hmem := mem_dictOfPairs h
  obtain ⟨q, _, hq⟩ := List.mem_map.mp hmem
  rw [← hq]
  exact convert_value_not_decimal q.2

theorem description_none_of_not_truthy {d : Option (List String)}
    (h : truthyDescription d = false) (h2 : d ≠ some []) : d = none := by
  cases d with
  | none => rfl
  | some l =>
    cases l with
    | nil => exact absurd rfl h2
    | cons a as => exact absurd h (by simp [truthyDescription])

/-! ### Claim theorems -/

/-- C1: the claim says every `run_sql_query` call returns a structured
envelope and never propagates an exception.  The variant in src/agent.py
violates this: with `get_connection()` raising, its `finally` block reads
the unbound local `conn` and propagates an `UnboundLocalError`, while the
variant in src/core/adk_config.py (which initialises `conn = None`)
returns the error envelope on the same input and returns an envelope on
every input. -/
theorem C1_gateway_exception_boundary :
    (agent_run_sql_query connectFailOracle).result =
      .error (.unboundLocal "conn") ∧
    (run_sql_query connectFailOracle).result =
      .ok (.errorMsg "could not connect to server") ∧
    (∀ o : DbOracle, ∃ env : Envelope, (run_sql_query o).result = .ok env) := by
  refine ⟨rfl, rfl, ?_⟩
  intro o
  rcases o with ⟨conn, ex, fe, co⟩
  cases conn with
  | error e => exact ⟨_, rfl⟩
  | ok u =>
    cases u
    cases ex with
    | error e => exact ⟨_, rfl⟩
    | ok res =>
      by_cases ht : truthyDescription res.description = true
      · cases fe with
        | error e => exact ⟨.errorMsg e, by simp [run_sql_query, ht]⟩
        | ok rows =>
          exact ⟨.results (rows.map (fun r => convert_row (res.description.getD []) r)),
            by simp [run_sql_query, ht]⟩
      · have ht' : truthyDescription res.description = false := by
          revert ht; cases truthyDescription res.description <;> simp
        cases co with
        | error e => exact ⟨.errorMsg e, by simp [run_sql_query, ht']⟩
        | ok u =>
          cases u
          exact ⟨.successMsg (toString res.rowcount ++ " rows affected."),
            by simp [run_sql_query, ht']⟩

/-- C2: every invocation of either gateway variant that acquires a
connection closes it exactly once before returning, on every exit path
(row-returning success, write-commit success, and each error return). -/
theorem C2_connection_closed_exactly_once (o : DbOracle)
    (h : (run_sql_query o).acquired = true) :
    (run_sql_query o).closes = 1 ∧ (agent_run_sql_query o).closes = 1 := by
  rcases o with ⟨conn, ex, fe, co⟩
  cases conn with
  | error e => exact absurd h (by simp [run_sql_query])
  | ok u =>
    cases u
    cases ex with
    | error e => exact ⟨rfl, rfl⟩
    | ok res =>
      by_cases ht : truthyDescription res.description = true
      · cases fe with
        | error e =>
          exact ⟨by simp [run_sql_query, ht], by simp [agent_run_sql_query, ht]⟩
        | ok rows =>
          exact ⟨by simp [run_sql_query, ht], by simp [agent_run_sql_query, ht]⟩
      · have ht' : truthyDescription res.description = false := by
          revert ht; cases truthyDescription res.description <;> simp
        cases co with
        | error e =>
          exact ⟨by simp [run_sql_query, ht'], by simp [agent_run_sql_query, ht']⟩
        | ok u =>
          cases u
          exact ⟨by simp [run_sql_query, ht'], by simp [agent_run_sql_query, ht']⟩

/-- C2 witness: a concrete write invocation acquires the connection and
both variants close it exactly once. -/
theorem C2_connection_closed_exactly_once_witness :
    (run_sql_query writeOneOracle).acquired = true ∧
    ((run_sql_query writeOneOracle).closes = 1 ∧
     (agent_run_sql_query writeOneOracle).closes = 1) :=
  ⟨rfl, C2_connection_closed_exactly_once writeOneOracle rfl⟩

/-- C4 counterexample: the gateway's write message carries a trailing
period, `"1 rows affected."`, so the claimed literal `"1 rows affected"`
is not the produced message. -/
theorem C4_message_counterexample :
    (run_sql_query writeOneOracle).result =
      .ok (.successMsg "1 rows affected.") ∧
    "1 rows affected." ≠ "1 rows affected" := by
  exact ⟨rfl, by decide⟩

/-- C4 (amended): a non-row-returning statement that executes and commits
without error yields `{status: "success", message: "<N> rows affected."}`
(with a trailing period) where N is exactly the store-reported
`rowcount`, and the transaction is committed. -/
theorem C4_write_rowcount_message (o : DbOracle) (res : ExecResult)
    (hc : o.connect = .ok ()) (hx : o.executeQ = .ok res)
    (hd : res.description = none) (hcm : o.commitR = .ok ()) :
    (run_sql_query o).result =
      .ok (.successMsg (toString res.rowcount ++ " rows affected.")) ∧
    (run_sql_query o).committed = true := by
  rcases o with ⟨conn, ex, fe, co⟩
  dsimp only at hc hx hcm
  subst hc hx hcm
  rcases res with ⟨d, rc⟩
  dsimp only at hd
  subst hd
  exact ⟨rfl, rfl⟩

/-- C4 witness: inserting one employee row (rowcount 1) yields the
message `"1 rows affected."`. -/
theorem C4_write_rowcount_message_witness :
    (run_sql_query writeOneOracle).result =
      .ok (.successMsg (toString (1 : Int) ++ " rows affected.")) ∧
    (run_sql_query writeOneOracle).committed = true :=
  C4_write_rowcount_message writeOneOracle ⟨none, 1⟩ rfl rfl rfl rfl

/-- C9 counterexample: with the first CREATE statement raising,
`create_tables` returns normally (it catches, prints and logs the
failure), so the failure does not propagate to the caller as the claim
requires. -/
theorem C9_bootstrap_returns_normally_on_failure :
    (create_tables failingBootOracle).result = .ok () ∧
    (create_tables failingBootOracle).loggedError = true :=
  ⟨rfl, rfl⟩

/-- C9 (amended): every failure during `create_tables` (connection or
table-creation or commit error) is caught inside the function, which
prints and logs it and returns normally; no failure propagates to the
caller, and the error branch runs exactly when some executed step
failed. -/
theorem C9_bootstrap_swallows_failures (o : BootOracle) :
    (create_tables o).result = .ok () ∧
    ((create_tables o).loggedError = false ↔
      (o.connect = .ok () ∧ o.createEmployees = .ok () ∧
       o.createSkills = .ok () ∧ o.commitB = .ok ())) := by
  rcases o with ⟨c, e1, e2, cm⟩
  cases c with
  | error e => simp [create_tables]
  | ok u =>
    cases u
    cases e1 with
    | error e => simp [create_tables]
    | ok u =>
      cases u
      cases e2 with
      | error e => simp [create_tables]
      | ok u =>
        cases u
        cases cm with
        | error e => simp [create_tables]
        | ok u => cases u; simp [create_tables]

/-- C10 counterexample: with every credential variable absent from the
environment, module initialisation completes normally, storing `None`
for each credential — there is no fatal initialization error; the
failure surfaces only on a later per-call connection attempt, which
propagates its error. -/
theorem C10_init_completes_without_credentials :
    dbModuleInit (fun _ => none) = ⟨none, none, none, none, none⟩ ∧
    (get_connection ⟨.error "invalid connection option"⟩).result =
      .error "invalid connection option" :=
  ⟨rfl, rfl⟩

/-- C10 (amended): absent credentials are read as `None` at process
initialisation without error and the failure is deferred to the per-call
connection attempt; the provider makes exactly one connection attempt
per invocation, with no retry, and propagates any connection failure to
its caller. -/
theorem C10_provider_single_attempt (o : ConnOracle) :
    (∀ env : String → Option String,
      dbModuleInit env =
        ⟨env "POSTGRES_HOST", env "POSTGRES_PORT", env "POSTGRES_DB",
         env "POSTGRES_USER", env "POSTGRES_PASSWORD"⟩) ∧
    (get_connection o).attempts = 1 ∧
    (∀ e, o.connectAttempt = .error e → (get_connection o).result = .error e) ∧
    (o.connectAttempt = .ok () → (get_connection o).result = .ok ()) := by
  rcases o with ⟨c⟩
  refine ⟨fun env => rfl, ?_, ?_, ?_⟩
  · cases c with
    | error e => rfl
    | ok u => cases u; rfl
  · intro e he
    dsimp only at he
    subst he
    rfl
  · intro he
    dsimp only at he
    subst he
    rfl

/-- C10 witness: a concrete refused connection is attempted exactly once
and its error propagates. -/
theorem C10_provider_single_attempt_witness :
    (get_connection ⟨.error "connection refused"⟩).attempts = 1 ∧
    (get_connection ⟨.error "connection refused"⟩).result =
      .error "connection refused" := by
  have h := C10_provider_single_attempt ⟨.error "connection refused"⟩
  exact ⟨h.2.1, h.2.2.1 "connection refused" rfl⟩

/-- C3 counterexample: a statement whose column description repeats a
name (`["a", "a"]`) yields a result dictionary with a single key, so the
dictionary's keys do not exactly match the statement's column list. -/
theorem C3_duplicate_keys_counterexample :
    (run_sql_query dupColOracle).result =
      .ok (.results [[("a", SqlValue.int 2)]]) ∧
    [("a", SqlValue.int 2)].map Prod.fst ≠ ["a", "a"] := by
  exact ⟨by decide, by decide⟩

/-- C3 (amended): for a row-returning statement the gateway returns
`{status: "success", results: ...}` where the list is obtained by
mapping each fetched row in the store's returned order (no re-sorting),
its length equals the store's row count, and, provided the statement's
column names are pairwise distinct, each dictionary's keys exactly match
the column list in order (duplicate column names collapse into one
key). -/
theorem C3_row_results_shape (o : DbOracle) (columns : List String)
    (rows : List (List SqlValue)) (rc : Int)
    (hc : o.connect = .ok ()) (hx : o.executeQ = .ok ⟨some columns, rc⟩)
    (hcols : columns ≠ []) (hf : o.fetchall = .ok rows)
    (hlen : ∀ r ∈ rows, r.length = columns.length) :
    (run_sql_query o).result =
      .ok (.results (rows.map (fun r => convert_row columns r))) ∧
    (rows.map (fun r => convert_row columns r)).length = rows.length ∧
    (columns.Nodup →
      ∀ r ∈ rows, (convert_row columns r).map Prod.fst = columns) := by
  rcases o with ⟨conn, ex, fe, co⟩
  dsimp only at hc hx hf
  subst hc hx hf
  have ht : truthyDescription (some columns) = true := by
    cases columns with
    | nil => exact absurd rfl hcols
    | cons c cs => rfl
  refine ⟨by simp [run_sql_query, ht], by simp, ?_⟩
  intro hnd r hr
  exact keys_convert_row (hlen r hr) hnd

/-- C3 witness: a concrete two-column select produces the converted rows
in order with keys matching the column list. -/
theorem C3_row_results_shape_witness :
    ([[SqlValue.text "Asha", SqlValue.decimal (5 / 2)]].map
        (fun r => convert_row ["name", "experience_years"] r)).length =
      ([[SqlValue.text "Asha", SqlValue.decimal (5 / 2)]] :
        List (List SqlValue)).length ∧
    (run_sql_query decimalRowOracle).result =
      .ok (.results ([[SqlValue.text "Asha", SqlValue.decimal (5 / 2)]].map
        (fun r => convert_row ["name", "experience_years"] r))) := by
  have h := C3_row_results_shape decimalRowOracle ["name", "experience_years"]
    [[SqlValue.text "Asha", SqlValue.decimal (5 / 2)]] (-1)
    rfl rfl (by decide) rfl (by decide)
  exact ⟨h.2.1, h.1⟩

/-- C5: decimal scalars are converted to floats and every other scalar
passes through unchanged, so no decimal ever appears in a success result
set produced by the gateway. -/
theorem C5_decimal_normalization :
    (∀ q : Rat, convert_value (.decimal q) = .float q) ∧
    (∀ v : SqlValue, (convert_value v).isDecimal = false) ∧
    (∀ v : SqlValue, v.isDecimal = false → convert_value v = v) ∧
    (∀ (o : DbOracle) (rs : List PyDict),
      (run_sql_query o).result = .ok (.results rs) →
      ∀ d ∈ rs, ∀ p ∈ d, (p.2).isDecimal = false) := by
  refine ⟨fun q => rfl, convert_value_not_decimal,
    fun v h => convert_value_of_not_decimal h, ?_⟩
  intro o rs h d hd p hp
  rcases o with ⟨conn, ex, fe, co⟩
  cases conn with
  | error e => simp [run_sql_query] at h
  | ok u =>
    cases u
    cases ex with
    | error e => simp [run_sql_query] at h
    | ok res =>
      by_cases ht : truthyDescription res.description = true
      · cases fe with
        | error e => simp [run_sql_query, ht] at h
        | ok rows =>
          simp only [run_sql_query, ht, if_true, Except.ok.injEq,
            Envelope.results.injEq] at h
          rw [← h] at hd
          obtain ⟨r, _, hr⟩ := List.mem_map.mp hd
          rw [← hr] at hp
          exact snd_convert_row_not_decimal hp
      · have ht' : truthyDescription res.description = false := by
          revert ht; cases truthyDescription res.description <;> simp
        cases co with
        | error e => simp [run_sql_query, ht'] at h
        | ok u => cases u; simp [run_sql_query, ht'] at h

/-- C5 witness: the concrete decimal-carrying select produces an
envelope in which the decimal appears as a float. -/
theorem C5_decimal_normalization_witness :
    (run_sql_query decimalRowOracle).result =
      .ok (.results [[("name", SqlValue.text "Asha"),
        ("experience_years", SqlValue.float (5 / 2))]]) ∧
    (∀ d ∈ [[("name", SqlValue.text "Asha"),
        ("experience_years", SqlValue.float (5 / 2))]],
      ∀ p ∈ d, (Prod.snd p).isDecimal = false) := by
  constructor
  · rfl
  · exact C5_decimal_normalization.2.2.2 decimalRowOracle _ rfl

/-- C6: the gateway calls commit exactly when the statement executed
without error and produced no column description; a row-returning
statement is never committed, and whenever the error envelope is
returned no commit took effect. -/
theorem C6_commit_iff_write (o : DbOracle)
    (hw : ∀ res, o.executeQ = .ok res → res.description ≠ some []) :
    ((run_sql_query o).commitCalled = true ↔
      (o.connect = .ok () ∧
        ∃ res, o.executeQ = .ok res ∧ res.description = none)) ∧
    (∀ env, (run_sql_query o).result = .ok env → env.status = "error" →
      (run_sql_query o).committed = false) := by
  rcases o with ⟨conn, ex, fe, co⟩
  cases conn with
  | error e =>
    refine ⟨?_, ?_⟩
    · simp [run_sql_query]
    · intro env _ _
      rfl
  | ok u =>
    cases u
    cases ex with
    | error e =>
      refine ⟨?_, ?_⟩
      · simp [run_sql_query]
      · intro env _ _
        rfl
    | ok res =>
      by_cases ht : truthyDescription res.description = true
      · have hdesc : res.description ≠ none := by
          intro hn
          rw [hn] at ht
          exact absurd ht (by simp [truthyDescription])
        refine ⟨?_, ?_⟩
        · constructor
          · intro hcc
            exfalso
            cases fe with
            | error e => simp [run_sql_query, ht] at hcc
            | ok rows => simp [run_sql_query, ht] at hcc
          · rintro ⟨-, res', hres', hd⟩
            dsimp only at hres'
            rw [Except.ok.injEq] at hres'
            exact absurd (hres' ▸ hd) hdesc
        · intro env henv hstat
          cases fe with
          | error e => simp [run_sql_query, ht]
          | ok rows =>
            simp only [run_sql_query, ht, if_true, Except.ok.injEq] at henv
            rw [← henv] at hstat
            exact absurd hstat (by simp [Envelope.status])
      · have ht' : truthyDescription res.description = false := by
          revert ht; cases truthyDescription res.description <;> simp
        have hnone : res.description = none :=
          description_none_of_not_truthy ht' (hw res rfl)
        refine ⟨?_, ?_⟩
        · constructor
          · intro _
            exact ⟨rfl, res, rfl, hnone⟩
          · intro _
            cases co with
            | error e => simp [run_sql_query, ht']
            | ok u => cases u; simp [run_sql_query, ht']
        · intro env henv hstat
          cases co with
          | error e => simp [run_sql_query, ht']
          | ok u =>
            cases u
            simp only [run_sql_query, ht', Bool.false_eq_true, if_false,
              Except.ok.injEq] at henv
            rw [← henv] at hstat
            exact absurd hstat (by simp [Envelope.status])

/-- C6 witness: the concrete one-row write satisfies the well-formedness
hypothesis and its commit call is equivalent to its being a
description-free successful execution. -/
theorem C6_commit_iff_write_witness :
    (run_sql_query writeOneOracle).commitCalled = true ↔
      (writeOneOracle.connect = .ok () ∧
        ∃ res, writeOneOracle.executeQ = .ok res ∧
          res.description = none) := by
  have hw : ∀ res, writeOneOracle.executeQ = .ok res →
      res.description ≠ some [] := by
    intro res h
    rw [show writeOneOracle.executeQ = .ok ⟨none, 1⟩ from rfl,
      Except.ok.injEq] at h
    rw [← h]
    decide
  exact (C6_commit_iff_write writeOneOracle hw).1

/-- C7: when a row-returning statement repeats a column name, the result
dictionary keeps a single entry for that name holding the value of the
last such column; in general every present column name has exactly one
entry, whose value is the conversion of the value zipped with the last
occurrence, and a duplicated column list yields strictly fewer keys than
columns. -/
theorem C7_duplicate_column_collapse :
    (∀ (columns : List String) (row : List SqlValue) (name : String),
      name ∈ columns → row.length = columns.length →
        countKey name (convert_row columns row) = 1 ∧
        lookupDict name (convert_row columns row) =
          lastValueFor name
            ((columns.zip row).map (fun p => (p.1, convert_value p.2)))) ∧
    convert_row ["a", "a"] [.int 1, .int 2] = [("a", SqlValue.int 2)] ∧
    (convert_row ["a", "a"] [.int 1, .int 2]).length <
      (["a", "a"] : List String).length := by
  refine ⟨?_, by decide, by decide⟩
  intro columns row name hmem hlen
  have hkeys : ((columns.zip row).map
      (fun p => (p.1, convert_value p.2))).map Prod.fst = columns :=
    keys_convert_pairs _ _ (le_of_eq hlen.symm)
  have hlk : lookupDict name (convert_row columns row) =
      lastValueFor name ((columns.zip row).map (fun p => (p.1, convert_value p.2))) :=
    lookupDict_dictOfPairs name _
  refine ⟨?_, hlk⟩
  have hnd : ((convert_row columns row).map Prod.fst).Nodup :=
    keys_nodup_dictOfPairs _
  have hle : countKey name (convert_row columns row) ≤ 1 :=
    countKey_le_one name hnd
  have hsome : ∃ v, lookupDict name (convert_row columns row) = some v := by
    rw [hlk]
    cases hval : lastValueFor name
        ((columns.zip row).map (fun p => (p.1, convert_value p.2))) with
    | some v => exact ⟨v, rfl⟩
    | none =>
      exfalso
      have := (lastValueFor_eq_none_iff name _).mp hval
      rw [hkeys] at this
      exact this hmem
  obtain ⟨v, hv⟩ := hsome
  exact le_antisymm hle (one_le_countKey_of_lookupDict hv)

/-- C7 witness: with columns `["a", "a"]` the built dictionary has
exactly one entry for `"a"`. -/
theorem C7_duplicate_column_collapse_witness :
    ("a" : String) ∈ (["a", "a"] : List String) ∧
    countKey "a" (convert_row ["a", "a"] [.int 1, .int 2]) = 1 :=
  ⟨by decide,
    (C7_duplicate_column_collapse.1 ["a", "a"] [.int 1, .int 2] "a"
      (by decide) (by decide)).1⟩

theorem hasTable_createTableIfNotExists_self (s : DbState) (n : String)
    (sch : TableSchema) : hasTable (createTableIfNotExists s n sch) n = true := by
  by_cases h : hasTable s n = true
  · rw [createTableIfNotExists, if_pos h]
    exact h
  · rw [createTableIfNotExists, if_neg h]
    simp [hasTable, List.any_append]

theorem hasTable_createTableIfNotExists_mono {s : DbState} {m : String}
    (n : String) (sch : TableSchema) (h : hasTable s m = true) :
    hasTable (createTableIfNotExists s n sch) m = true := by
  by_cases hn : hasTable s n = true
  · rw [createTableIfNotExists, if_pos hn]
    exact h
  · rw [createTableIfNotExists, if_neg hn]
    simp [hasTable, List.any_append] at h ⊢
    exact Or.inl h

theorem create_tables_effect_idem (s : DbState) :
    create_tables_effect (create_tables_effect s) = create_tables_effect s := by
  have h1 : hasTable (create_tables_effect s) "employees" = true :=
    hasTable_createTableIfNotExists_mono _ _
      (hasTable_createTableIfNotExists_self s "employees" employeesSchema)
  have h2 : hasTable (create_tables_effect s) "employee_skills" = true :=
    hasTable_createTableIfNotExists_self _ _ _
  rw [create_tables_effect,
    show createTableIfNotExists (create_tables_effect s) "employees" employeesSchema =
        create_tables_effect s from by rw [createTableIfNotExists, if_pos h1],
    createTableIfNotExists, if_pos h2]

/-- C8: the schema bootstrap (`create_tables`) is idempotent on the
store's catalog: iterating it any positive number of times equals one
run; when the tables are absent it appends exactly the employees and
employee_skills tables with their source schemas (unique non-null name;
employee foreign key with cascade delete and per employee+tech
uniqueness); when both exist it leaves the catalog untouched. -/
theorem C8_bootstrap_idempotent :
    (∀ (n : Nat) (s : DbState), 1 ≤ n →
      create_tables_effect^[n] s = create_tables_effect s) ∧
    (∀ s : DbState, hasTable s "employees" = false →
      hasTable s "employee_skills" = false →
      create_tables_effect s =
        s ++ [("employees", employeesSchema),
              ("employee_skills", employeeSkillsSchema)]) ∧
    (∀ s : DbState, hasTable s "employees" = true →
      hasTable s "employee_skills" = true → create_tables_effect s = s) ∧
    (employeesSchema.columns.any fun c =>
      decide (c.colName = "name") && c.notNull && c.uniqueCol) = true ∧
    employeeSkillsSchema.tableUniques = [["employee_id", "tech"]] ∧
    (employeeSkillsSchema.columns.any fun c =>
      decide (c.colName = "employee_id") &&
      decide (c.refTable = some "employees") && c.onDeleteCascade) = true := by
  refine ⟨?_, ?_, ?_, by decide, by decide, by decide⟩
  · intro n s h
    induction n with
    | zero => exact absurd h (by decide)
    | succ m ih =>
      cases m with
      | zero => rfl
      | succ k =>
        rw [Function.iterate_succ_apply', ih (by omega),
          create_tables_effect_idem]
  · intro s h1 h2
    have e1 : createTableIfNotExists s "employees" employeesSchema =
        s ++ [("employees", employeesSchema)] := by
      rw [createTableIfNotExists, if_neg (by simp [h1])]
    have h2' : hasTable (s ++ [("employees", employeesSchema)])
        "employee_skills" = false := by
      simp [hasTable, List.any_append] at h2 ⊢
      exact h2
    rw [create_tables_effect, e1, createTableIfNotExists,
      if_neg (by simp [h2']), List.append_assoc]
    rfl
  · intro s h1 h2
    have e1 : createTableIfNotExists s "employees" employeesSchema = s := by
      rw [createTableIfNotExists, if_pos h1]
    rw [create_tables_effect, e1, createTableIfNotExists, if_pos h2]

/-- C8 witness: starting from an empty catalog, two runs equal one run,
and one run creates exactly the two tables. -/
theorem C8_bootstrap_idempotent_witness :
    create_tables_effect^[2] ([] : DbState) = create_tables_effect [] ∧
    create_tables_effect ([] : DbState) =
      [("employees", employeesSchema),
       ("employee_skills", employeeSkillsSchema)] :=
  ⟨C8_bootstrap_idempotent.1 2 [] (by decide),
    C8_bootstrap_idempotent.2.1 [] rfl rfl⟩

end AdkPostgres
